import Mathlib

/-!
Verification of the sessioncast-cli agent core against its specification.

The definitions below are a shallow embedding of the TypeScript sources:
  * `src/agent/session-handler.ts` — the adaptive capture scheduler,
  * `src/agent/websocket.ts` — the relay link (reconnection state machine,
    error handling, screen sends),
  * `src/agent/api-client.ts` — the control channel client (same
    reconnection machine, `send_keys` dispatch),
  * `src/agent/runner.ts` — the session orchestrator (scan loop and
    remote session creation).
Machine integers are modelled as `Nat`; `Math.random()` results as a
rational `r` with `0 ≤ r < 1`; wall-clock times (`Date.now()`) as `Nat`
millisecond timestamps.
-/

namespace SessionCast

/-! ## Constants (session-handler.ts, websocket.ts, api-client.ts) -/

def CAPTURE_INTERVAL_ACTIVE_MS : Nat := 50

def CAPTURE_INTERVAL_IDLE_MS : Nat := 200

def ACTIVE_THRESHOLD_MS : Nat := 2000

def FORCE_SEND_INTERVAL_MS : Nat := 10000

def USE_COMPRESSION : Bool := true

def MIN_COMPRESS_SIZE : Nat := 512

def MAX_RECONNECT_ATTEMPTS : Nat := 5

def BASE_RECONNECT_DELAY_MS : Nat := 2000

def MAX_RECONNECT_DELAY_MS : Nat := 60000

def CIRCUIT_BREAKER_DURATION_MS : Nat := 120000

/-! ## Adaptive capture scheduler (session-handler.ts, `startScreenCapture`)

One tick of the `capture` closure.  The tmux snapshot is `Option String`
(`capturePane` returns `string | null`); `sendOk` is the boolean result the
transport send would return (the source discards it).  The terminal
clear-and-home prefix `\x1b[2J\x1b[H` is prepended before measuring the
UTF-8 byte length against the compression threshold. -/

structure CaptureState where
  lastScreen : String
  lastForceSendTime : Nat
  lastChangeTime : Nat
deriving DecidableEq

def initCaptureState : CaptureState :=
  { lastScreen := "", lastForceSendTime := 0, lastChangeTime := 0 }

inductive SendKind
  | plain
  | compressed
deriving DecidableEq

def clearAndHome : String := "\x1b[2J\x1b[H"

structure TickResult where
  state : CaptureState
  sent : Option SendKind
  sendResult : Option Bool
  sleepMs : Nat
deriving DecidableEq

def captureTick (running connected : Bool) (st : CaptureState)
    (screen : Option String) (now : Nat) (sendOk : Bool) : TickResult :=
  if !(running && connected) then
    { state := st, sent := none, sendResult := none, sleepMs := 500 }
  else
    match screen with
    | none =>
        { state := st, sent := none, sendResult := none,
          sleepMs := CAPTURE_INTERVAL_IDLE_MS }
    | some screen =>
        let changed : Bool := screen != st.lastScreen
        let forceTime : Bool := FORCE_SEND_INTERVAL_MS ≤ now - st.lastForceSendTime
        if changed || forceTime then
          let st' : CaptureState :=
            { lastScreen := screen,
              lastForceSendTime := now,
              lastChangeTime := if changed then now else st.lastChangeTime }
          let fullOutput := clearAndHome ++ screen
          let kind : SendKind :=
            if USE_COMPRESSION && MIN_COMPRESS_SIZE < fullOutput.utf8ByteSize then
              SendKind.compressed
            else
              SendKind.plain
          let isActive : Bool := now - st'.lastChangeTime < ACTIVE_THRESHOLD_MS
          { state := st',
            sent := some kind,
            sendResult := some sendOk,
            sleepMs := if isActive then CAPTURE_INTERVAL_ACTIVE_MS
                       else CAPTURE_INTERVAL_IDLE_MS }
        else
          let isActive : Bool := now - st.lastChangeTime < ACTIVE_THRESHOLD_MS
          { state := st,
            sent := none,
            sendResult := none,
            sleepMs := if isActive then CAPTURE_INTERVAL_ACTIVE_MS
                       else CAPTURE_INTERVAL_IDLE_MS }

/-! ## Screen sends (websocket.ts, `sendScreen` / `sendScreenCompressed`)

A send outcome records what went over the wire.  Gzip is abstracted as a
function `gz : List Nat → Option (List Nat)`; `none` models `gzipSync`
throwing, which the source catches by falling back to `sendScreen`. -/

inductive ScreenSend
  | notSent
  | screen (data : List Nat)
  | screenGz (compressed : List Nat)
deriving DecidableEq

def sendScreen (connected : Bool) (data : List Nat) : ScreenSend :=
  if !connected then ScreenSend.notSent else ScreenSend.screen data

def sendScreenCompressed (gz : List Nat → Option (List Nat))
    (connected : Bool) (data : List Nat) : ScreenSend :=
  if !connected then ScreenSend.notSent
  else
    match gz data with
    | some c => ScreenSend.screenGz c
    | none => sendScreen connected data

/-! ## Session-name sanitization and remote creation (runner.ts,
`createTmuxSession`)

`sessionName.replace(/[^a-zA-Z0-9_-]/g, '_')` replaces every character
outside the allowed class by an underscore.  The creation decision checks
the sanitized name for emptiness, then for an already-tracked handler, then
calls the capability interface (abstracted as `createOk`). -/

def isAllowedChar (c : Char) : Bool :=
  ('a' ≤ c && c ≤ 'z') || ('A' ≤ c && c ≤ 'Z') ||
  ('0' ≤ c && c ≤ '9') || c == '_' || c == '-'

def sanitizeSessionName (s : String) : String :=
  String.mk (s.data.map (fun c => if isAllowedChar c then c else '_'))

inductive CreateOutcome
  | rejectedEmpty
  | rejectedExists
  | created (name : String) (rescanTriggered : Bool)
  | createFailed (name : String)
deriving DecidableEq

def createTmuxSession (tracked : List String) (createOk : String → Bool)
    (sessionName : String) : CreateOutcome :=
  let sanitized := sanitizeSessionName sessionName
  if sanitized = "" then CreateOutcome.rejectedEmpty
  else if sanitized ∈ tracked then CreateOutcome.rejectedExists
  else if createOk sanitized then CreateOutcome.created sanitized true
  else CreateOutcome.createFailed sanitized

/-! ## Reconnection / circuit-breaker state machine (websocket.ts lines
46–228; api-client.ts has the identical logic and constants)

The mutable fields of `RelayWebSocketClient` that the reconnection logic
reads or writes, plus the single pending `reconnectTimer`: the timer either
re-runs `scheduleReconnect` (a circuit-breaker recheck) or runs the guarded
`connect()` attempt.  `r` is the `Math.random()` sample used for jitter. -/

inductive TimerKind
  | recheck
  | connectAttempt
deriving DecidableEq

structure PendingTimer where
  kind : TimerKind
  fireAt : Nat
deriving DecidableEq

structure ReconnState where
  isConnected : Bool
  reconnectAttempts : Nat
  circuitBreakerOpen : Bool
  circuitBreakerResetTime : Nat
  destroyed : Bool
  autoReconnect : Bool
  reconnectTimer : Option PendingTimer
deriving DecidableEq

def initReconnState : ReconnState :=
  { isConnected := false, reconnectAttempts := 0, circuitBreakerOpen := false,
    circuitBreakerResetTime := 0, destroyed := false, autoReconnect := true,
    reconnectTimer := none }

/-- `min(BASE_RECONNECT_DELAY_MS * 2^(n-1), MAX_RECONNECT_DELAY_MS)` for
attempt number `n` (the source computes it after incrementing, so `n ≥ 1`). -/
def computeDelay (n : Nat) : Nat :=
  min (BASE_RECONNECT_DELAY_MS * 2 ^ (n - 1)) MAX_RECONNECT_DELAY_MS

/-- `Math.floor(delay + Math.random() * delay * 0.5)` with `r` the random
sample. -/
def reconnectDelayMs (n : Nat) (r : ℚ) : ℤ :=
  ⌊(computeDelay n : ℚ) + r * (computeDelay n : ℚ) * (1 / 2)⌋

def destroyLink (st : ReconnState) : ReconnState :=
  { st with destroyed := true, autoReconnect := false, reconnectTimer := none }

def scheduleReconnect (st : ReconnState) (now : Nat) (r : ℚ) : ReconnState :=
  if st.destroyed = true then st
  else if st.circuitBreakerOpen = true ∧ now < st.circuitBreakerResetTime then
    { st with reconnectTimer := some (PendingTimer.mk TimerKind.recheck st.circuitBreakerResetTime) }
  else
    let st1 :=
      if st.circuitBreakerOpen = true then
        { st with circuitBreakerOpen := false, reconnectAttempts := 0 }
      else st
    let attempts := st1.reconnectAttempts + 1
    if MAX_RECONNECT_ATTEMPTS < attempts then
      { st1 with
          circuitBreakerOpen := true,
          circuitBreakerResetTime := now + CIRCUIT_BREAKER_DURATION_MS,
          reconnectAttempts := 0,
          reconnectTimer := some (PendingTimer.mk TimerKind.recheck (now + CIRCUIT_BREAKER_DURATION_MS)) }
    else
      { st1 with
          reconnectAttempts := attempts,
          reconnectTimer := some (PendingTimer.mk TimerKind.connectAttempt (now + (reconnectDelayMs attempts r).toNat)) }

/-- Observable effect of one event: whether `this.connect()` was invoked. -/
inductive LinkAction
  | silent
  | connectCall (now : Nat)
deriving DecidableEq

inductive LinkEvent
  | sockOpen
  | sockClose (now : Nat) (r : ℚ)
  | timerFire (now : Nat) (r : ℚ)
  | destroyCall

def linkStep (st : ReconnState) (e : LinkEvent) : ReconnState × LinkAction :=
  match e with
  | LinkEvent.sockOpen =>
      ({ st with isConnected := true, reconnectAttempts := 0,
                 circuitBreakerOpen := false }, LinkAction.silent)
  | LinkEvent.sockClose now r =>
      let st1 := { st with isConnected := false }
      if st1.autoReconnect = true ∧ st1.destroyed = false then
        (scheduleReconnect st1 now r, LinkAction.silent)
      else (st1, LinkAction.silent)
  | LinkEvent.timerFire now r =>
      match st.reconnectTimer with
      | none => (st, LinkAction.silent)
      | some t =>
          let st1 := { st with reconnectTimer := none }
          match t.kind with
          | TimerKind.recheck => (scheduleReconnect st1 now r, LinkAction.silent)
          | TimerKind.connectAttempt =>
              if st1.isConnected = false ∧ st1.destroyed = false then
                (st1, LinkAction.connectCall now)
              else (st1, LinkAction.silent)
  | LinkEvent.destroyCall => (destroyLink st, LinkAction.silent)

/-- Side conditions under which the event can occur: `open` only fires on a
live (non-destroyed) socket, a timer only fires once scheduled and not
before its deadline, and a `Math.random()` sample lies in `[0, 1)`. -/
def eventOk (st : ReconnState) (e : LinkEvent) : Prop :=
  match e with
  | LinkEvent.sockOpen => st.destroyed = false
  | LinkEvent.sockClose _ r => 0 ≤ r ∧ r < 1
  | LinkEvent.timerFire now r =>
      (∃ t, st.reconnectTimer = some t ∧ t.fireAt ≤ now) ∧ 0 ≤ r ∧ r < 1
  | LinkEvent.destroyCall => True

inductive Reachable : ReconnState → Prop
  | init : Reachable initReconnState
  | step (st : ReconnState) (e : LinkEvent) :
      Reachable st → eventOk st e → Reachable (linkStep st e).1

/-- The circuit-breaker invariant: while the breaker is open the attempt
counter is zero and the only pending timer is a recheck no earlier than the
reset deadline. -/
def LinkInv (st : ReconnState) : Prop :=
  st.circuitBreakerOpen = true →
    st.reconnectAttempts = 0 ∧
    ∀ t, st.reconnectTimer = some t →
      t.kind = TimerKind.recheck ∧ st.circuitBreakerResetTime ≤ t.fireAt

/-! ## Inbound `error` handling (websocket.ts, `handleError`)

`meta` is the wire message's string map, modelled as an association list
read through `metaGet` (first binding wins, as a JS object has unique
keys). -/

def metaGet (m : List (String × String)) (k : String) : Option String :=
  (m.find? (fun p => p.1 == k)).map Prod.snd

inductive ErrorEffect
  | ignored
  | logOnly
  | limitNotice (exitCode : Nat)
deriving DecidableEq

def handleError (st : ReconnState) (meta : Option (List (String × String))) :
    ReconnState × ErrorEffect :=
  match meta with
  | none => (st, ErrorEffect.ignored)
  | some m =>
      if metaGet m "code" = some "LIMIT_EXCEEDED" then
        (destroyLink { st with autoReconnect := false }, ErrorEffect.limitNotice 1)
      else (st, ErrorEffect.logOnly)

/-! ## `connect()` and the socket population (websocket.ts lines 46–88,
261–274)

`connect()` checks only the destroyed flag, then unconditionally builds a
fresh `WebSocket` and overwrites `this.ws`; the previous socket, if any, is
not closed.  `destroy()` closes only the socket currently held in
`this.ws`.  `liveSockets` tracks every socket constructed and not yet
closed, identified by a fresh counter. -/

structure ConnModel where
  destroyed : Bool
  isConnected : Bool
  ws : Option Nat
  liveSockets : List Nat
  nextSock : Nat
deriving DecidableEq

def initConnModel : ConnModel :=
  { destroyed := false, isConnected := false, ws := none,
    liveSockets := [], nextSock := 0 }

def connectCall (m : ConnModel) : ConnModel :=
  if m.destroyed = true then m
  else
    { m with ws := some m.nextSock,
             liveSockets := m.liveSockets ++ [m.nextSock],
             nextSock := m.nextSock + 1 }

def destroyCall (m : ConnModel) : ConnModel :=
  { m with destroyed := true,
           ws := none,
           liveSockets :=
             match m.ws with
             | some s => m.liveSockets.filter (fun x => x ≠ s)
             | none => m.liveSockets }

/-! ## Orchestrator scan (runner.ts, `scanAndUpdateSessions`)

Handlers are an association list `name ↦ handler id` (insertion-ordered,
like a JS `Map`); fresh ids come from a counter.  The source snapshots the
tracked key set, starts a handler for every current name not tracked, then
stops and deletes the handler of every tracked name not current.  `Set`
deduplication of the scan output is `List.dedup`. -/

abbrev Handlers := List (String × Nat)

def keysOf (hs : Handlers) : List String := hs.map Prod.fst

def lookupHandler : Handlers → String → Option Nat
  | [], _ => none
  | p :: rest, s => if p.1 = s then some p.2 else lookupHandler rest s

def startNew (tracked : List String) :
    Handlers → Nat → List String → Handlers × Nat × List String
  | hs, fresh, [] => (hs, fresh, [])
  | hs, fresh, s :: rest =>
      if s ∈ tracked then startNew tracked hs fresh rest
      else
        let r := startNew tracked (hs ++ [(s, fresh)]) (fresh + 1) rest
        (r.1, r.2.1, s :: r.2.2)

def stopRemoved (current : List String) :
    List String → Handlers → Handlers × List String
  | [], hs => (hs, [])
  | s :: rest, hs =>
      if s ∈ current then stopRemoved current rest hs
      else
        let r := stopRemoved current rest (hs.filter (fun p => p.1 ≠ s))
        (r.1, s :: r.2)

structure ScanResult where
  handlers : Handlers
  fresh : Nat
  started : List String
  stopped : List String
deriving DecidableEq

def scanAndUpdateSessions (hs : Handlers) (fresh : Nat)
    (scan : List String) : ScanResult :=
  let current := scan.dedup
  let tracked := keysOf hs
  let r1 := startNew tracked hs fresh current
  let r2 := stopRemoved current tracked r1.1
  { handlers := r2.1, fresh := r1.2.1, started := r1.2.2, stopped := r2.2 }

/-! ## Control channel `send_keys` dispatch (api-client.ts,
`handleSendKeys`)

The parsed JSON payload is modelled as optional fields (`none` = property
absent); a JSON parse failure is the `Except.error` case, which the source
catches and answers with the thrown message.  JS falsiness on the string
fields makes both a missing and an empty `target`/`keys` fail the guard.
The capability interface is `sendKeysFn`; the third result component
records whether it was invoked. -/

structure SendKeysPayload where
  target : Option String := none
  keys : Option String := none
  enter : Option Bool := none
deriving DecidableEq

inductive SendKeysReply
  | missingArgs
  | result (success : Bool) (target : String)
  | thrown (err : String)
deriving DecidableEq

def handleSendKeys (sendKeysFn : String → String → Bool → Bool)
    (requestId : Option String) (payload : Except String SendKeysPayload) :
    Option (String × SendKeysReply × Bool) :=
  match requestId with
  | none => none
  | some rid =>
      match payload with
      | Except.error e => some (rid, SendKeysReply.thrown e, false)
      | Except.ok p =>
          match p.target, p.keys with
          | some t, some k =>
              if t = "" ∨ k = "" then some (rid, SendKeysReply.missingArgs, false)
              else
                some (rid, SendKeysReply.result (sendKeysFn t k (p.enter.getD true)) t, true)
          | _, _ => some (rid, SendKeysReply.missingArgs, false)

/-! ## Theorems -/

/-- Claim C4: an inbound `error` message whose `meta.code` is
`LIMIT_EXCEEDED` disables reconnection, destroys the Link, prints the
structured limit notice, and exits the process with the non-zero status 1;
an `error` with any other code only logs and leaves the Link state (hence
its retry behaviour) untouched. -/
theorem c4_limit_exceeded_fatal (st : ReconnState) (m : List (String × String)) :
    (metaGet m "code" = some "LIMIT_EXCEEDED" →
      handleError st (some m) =
        (destroyLink { st with autoReconnect := false }, ErrorEffect.limitNotice 1) ∧
      (handleError st (some m)).1.autoReconnect = false ∧
      (handleError st (some m)).1.destroyed = true ∧
      (1 : Nat) ≠ 0) ∧
    (metaGet m "code" ≠ some "LIMIT_EXCEEDED" →
      handleError st (some m) = (st, ErrorEffect.logOnly)) := by
  constructor
  · intro h
    simp [handleError, h, destroyLink]
  · intro h
    simp [handleError, h]

/-- Evaluation of `c4_limit_exceeded_fatal` on a concrete limit-exceeded
message. -/
theorem c4_limit_exceeded_fatal_witness :
    handleError initReconnState (some [("code", "LIMIT_EXCEEDED")]) =
      (destroyLink { initReconnState with autoReconnect := false },
       ErrorEffect.limitNotice 1) :=
  ((c4_limit_exceeded_fatal initReconnState [("code", "LIMIT_EXCEEDED")]).1
    (by decide)).1

/-- Counterexample to claim C5: in the state reached by `connect()`
followed by a successful `open` (so the Link is connected, with one live
socket), a second `connect()` call is not a no-op — it constructs a second
socket without closing the first, leaving two live sockets. -/
theorem c5_counterexample :
    connectCall { destroyed := false, isConnected := true, ws := some 0,
                  liveSockets := [0], nextSock := 1 } ≠
      ({ destroyed := false, isConnected := true, ws := some 0,
         liveSockets := [0], nextSock := 1 } : ConnModel) ∧
    (connectCall { destroyed := false, isConnected := true, ws := some 0,
                   liveSockets := [0], nextSock := 1 }).liveSockets.length = 2 := by
  decide

/-- Claim C5 (amended): `connect()` is a no-op once destroyed; on a
non-destroyed Link every call (even while connecting or connected)
constructs a fresh socket and overwrites `ws` without closing the previous
socket, so the count of live sockets grows by one; `destroy()` closes the
current socket. -/
theorem c5_connect_behavior (m : ConnModel) :
    (m.destroyed = true → connectCall m = m) ∧
    (m.destroyed = false →
      (connectCall m).ws = some m.nextSock ∧
      (connectCall m).liveSockets = m.liveSockets ++ [m.nextSock] ∧
      (connectCall m).liveSockets.length = m.liveSockets.length + 1) ∧
    (destroyCall m).ws = none ∧ (destroyCall m).destroyed = true := by
  refine ⟨fun h => ?_, fun h => ?_, ?_, ?_⟩
  · simp [connectCall, h]
  · simp [connectCall, h]
  · simp [destroyCall]
  · simp [destroyCall]

/-- Evaluation of `c5_connect_behavior` on a destroyed Link. -/
theorem c5_connect_behavior_witness :
    connectCall { destroyed := true, isConnected := false, ws := none,
                  liveSockets := [], nextSock := 3 } =
      { destroyed := true, isConnected := false, ws := none,
        liveSockets := [], nextSock := 3 } :=
  (c5_connect_behavior _).1 (by decide)

/-- Counterexample to claim C6: the all-invalid input `"!!!"` does not
sanitize to the empty string — each invalid character is replaced by an
underscore, giving `"___"` — and the request is not rejected: a session
named `"___"` is created. -/
theorem c6_counterexample :
    sanitizeSessionName "!!!" = "___" ∧
    sanitizeSessionName "!!!" ≠ "" ∧
    createTmuxSession [] (fun _ => true) "!!!" =
      CreateOutcome.created "___" true := by
  decide

/-- Claim C6 (amended): the requested name is sanitized by replacing every
character outside alphanumerics, `-`, `_` with an underscore (so
`"my session!"` yields `"my_session_"` and the result always consists of
allowed characters only); the sanitized result is empty exactly for the
empty input, which is rejected silently with no session created; a request
whose sanitized name matches an already-tracked pair is rejected. -/
theorem c6_create_session_sanitization (s : String) (tracked : List String)
    (createOk : String → Bool) :
    (∀ c ∈ (sanitizeSessionName s).data, isAllowedChar c = true) ∧
    sanitizeSessionName "my session!" = "my_session_" ∧
    (sanitizeSessionName s = "" ↔ s = "") ∧
    (s = "" → createTmuxSession tracked createOk s = CreateOutcome.rejectedEmpty) ∧
    (sanitizeSessionName s ≠ "" → sanitizeSessionName s ∈ tracked →
      createTmuxSession tracked createOk s = CreateOutcome.rejectedExists) := by
  refine ⟨?_, by decide, ?_, ?_, ?_⟩
  · intro c hc
    simp only [sanitizeSessionName, List.mem_map] at hc
    obtain ⟨c0, _, rfl⟩ := hc
    by_cases h : isAllowedChar c0 = true
    · simp [h]
    · simp only [h, if_neg]
      simp [isAllowedChar]
  · constructor
    · intro h
      have hnil : s.data = [] := by
        simpa [sanitizeSessionName] using congrArg String.data h
      apply String.ext
      simpa using hnil
    · intro h
      subst h
      decide
  · intro h
    subst h
    simp [createTmuxSession, sanitizeSessionName]
  · intro h1 h2
    simp [createTmuxSession, h1, h2]

/-- Evaluation of `c6_create_session_sanitization`: a request whose
sanitized name collides with a tracked pair is rejected. -/
theorem c6_create_session_sanitization_witness :
    createTmuxSession ["my_session_"] (fun _ => true) "my session!" =
      CreateOutcome.rejectedExists :=
  (c6_create_session_sanitization "my session!" ["my_session_"]
    (fun _ => true)).2.2.2.2 (by decide) (by decide)

/-- Claim C7: a snapshot the scheduler decides to send goes out compressed
(type `screenGz`) exactly when the encoded payload (clear sequence plus
screen, UTF-8) exceeds 512 bytes, and uncompressed (type `screen`)
otherwise; if compression throws, the frame is still sent uncompressed —
never dropped. -/
theorem c7_compression_threshold (st : CaptureState) (screen : String)
    (now : Nat) (sendOk : Bool) (gz : List Nat → Option (List Nat))
    (data : List Nat) :
    ((captureTick true true st (some screen) now sendOk).sent.isSome = true →
      ((captureTick true true st (some screen) now sendOk).sent =
          some SendKind.compressed ↔
        MIN_COMPRESS_SIZE < (clearAndHome ++ screen).utf8ByteSize) ∧
      ((captureTick true true st (some screen) now sendOk).sent =
          some SendKind.plain ↔
        (clearAndHome ++ screen).utf8ByteSize ≤ MIN_COMPRESS_SIZE)) ∧
    (∀ c, gz data = some c →
      sendScreenCompressed gz true data = ScreenSend.screenGz c) ∧
    (gz data = none →
      sendScreenCompressed gz true data = ScreenSend.screen data ∧
      ScreenSend.screen data ≠ ScreenSend.notSent) := by
  refine ⟨?_, ?_, ?_⟩
  · intro hsent
    simp only [captureTick, USE_COMPRESSION, Bool.true_and] at hsent ⊢
    by_cases hc : (screen != st.lastScreen ||
        decide (FORCE_SEND_INTERVAL_MS ≤ now - st.lastForceSendTime)) = true
    · simp only [hc, if_true] at hsent ⊢
      by_cases hz : MIN_COMPRESS_SIZE < (clearAndHome ++ screen).utf8ByteSize
      · simp [hz]
      · simp [hz]
        omega
    · simp [hc] at hsent
  · intro c hc
    simp [sendScreenCompressed, hc]
  · intro hc
    simp [sendScreenCompressed, sendScreen, hc]

/-- Evaluation of `c7_compression_threshold`: a failing gzip falls back to
an uncompressed send of the same bytes. -/
theorem c7_compression_threshold_witness :
    sendScreenCompressed (fun _ => none) true [27, 91] = ScreenSend.screen [27, 91] :=
  ((c7_compression_threshold initCaptureState "" 0 true (fun _ => none)
    [27, 91]).2.2 rfl).1

/-- Claim C9: a control-channel `send_keys` request carrying a `requestId`
whose parsed payload is missing `target` or `keys` (or carries them empty)
is answered `success:false` with the explanatory error, and the capability
interface is not invoked; with both present and non-empty the keys are
delegated to the capability interface and its boolean result is returned in
the response correlated by the same `requestId`. -/
theorem c9_send_keys_dispatch (f : String → String → Bool → Bool)
    (rid : String) (p : SendKeysPayload) :
    ((p.target = none ∨ p.target = some "" ∨ p.keys = none ∨ p.keys = some "") →
      handleSendKeys f (some rid) (Except.ok p) =
        some (rid, SendKeysReply.missingArgs, false)) ∧
    (∀ t k, p.target = some t → t ≠ "" → p.keys = some k → k ≠ "" →
      handleSendKeys f (some rid) (Except.ok p) =
        some (rid, SendKeysReply.result (f t k (p.enter.getD true)) t, true)) := by
  constructor
  · intro h
    rcases h with h | h | h | h <;>
      cases ht : p.target <;> cases hk : p.keys <;>
        simp_all [handleSendKeys]
  · intro t k ht hne hk hke
    simp [handleSendKeys, ht, hk, hne, hke]

/-- Evaluation of `c9_send_keys_dispatch` on a request missing `keys`: the
error reply is produced and the capability interface is not invoked. -/
theorem c9_send_keys_dispatch_witness :
    handleSendKeys (fun _ _ _ => false) (some "req-1")
      (Except.ok { target := some "s1" }) =
      some ("req-1", SendKeysReply.missingArgs, false) :=
  (c9_send_keys_dispatch (fun _ _ _ => false) "req-1"
    { target := some "s1" }).1 (Or.inr (Or.inr (Or.inl rfl)))

/-- Counterexample to claim C3: with the last send 10000 ms ago and an
unchanged screen, the scheduler does send (the source tests
`elapsed >= 10000`), although the bytes do not differ and *more than*
10000 ms have not elapsed — the boundary case refutes the claimed
if-and-only-if. -/
theorem c3_counterexample :
    (captureTick true true (CaptureState.mk "a" 0 0) (some "a") 10000 true).sent.isSome = true ∧
    ¬(("a" : String) ≠ "a" ∨ FORCE_SEND_INTERVAL_MS < 10000 - 0) := by
  constructor
  · decide
  · decide

/-- Claim C3 (amended): on a tick that obtains a snapshot, the scheduler
sends it if and only if its bytes differ from the last sent snapshot or at
least 10000 ms (the force-resend interval) have elapsed since the last
send; in particular a snapshot byte-identical to the last sent one goes out
only when at least the force-resend interval has elapsed. -/
theorem c3_send_condition (st : CaptureState) (s : String) (now : Nat)
    (b : Bool) :
    ((captureTick true true st (some s) now b).sent.isSome = true ↔
      (s ≠ st.lastScreen ∨
        FORCE_SEND_INTERVAL_MS ≤ now - st.lastForceSendTime)) ∧
    (s = st.lastScreen →
      (captureTick true true st (some s) now b).sent.isSome = true →
      FORCE_SEND_INTERVAL_MS ≤ now - st.lastForceSendTime) := by
  have hmain : (captureTick true true st (some s) now b).sent.isSome = true ↔
      (s ≠ st.lastScreen ∨
        FORCE_SEND_INTERVAL_MS ≤ now - st.lastForceSendTime) := by
    simp only [captureTick]
    by_cases hc : (s != st.lastScreen ||
        decide (FORCE_SEND_INTERVAL_MS ≤ now - st.lastForceSendTime)) = true
    · simp only [hc, if_true]
      simp only [Bool.or_eq_true, bne_iff_ne, decide_eq_true_eq] at hc
      simpa using hc
    · simp only [hc]
      simp only [Bool.or_eq_true, bne_iff_ne, decide_eq_true_eq] at hc
      push_neg at hc
      simp [hc.1, hc.2]
  refine ⟨hmain, fun hs hsent => ?_⟩
  rcases hmain.mp hsent with h | h
  · exact absurd hs h
  · exact h

/-- Evaluation of `c3_send_condition` at the 10000 ms boundary with an
unchanged screen: the force-resend interval has (exactly) elapsed. -/
theorem c3_send_condition_witness :
    FORCE_SEND_INTERVAL_MS ≤ 10000 - (0 : Nat) :=
  (c3_send_condition (CaptureState.mk "a" 0 0) "a" 10000 true).2 rfl (by decide)

/-- Claim C10: when the send condition holds, the tick updates
`lastScreen` to the new snapshot and `lastForceSendTime` to the current
time independently of whether the transport send succeeds (the boolean
result is discarded), so a frame whose send failed is not retried until the
content changes or the force-resend interval elapses: an immediately
following tick with the same screen within the interval sends nothing. -/
theorem c10_state_update_ignores_send_result (st : CaptureState) (s : String)
    (now : Nat) (a b : Bool) :
    ((captureTick true true st (some s) now a).state =
      (captureTick true true st (some s) now b).state ∧
     (captureTick true true st (some s) now a).sent =
      (captureTick true true st (some s) now b).sent) ∧
    ((captureTick true true st (some s) now a).sent.isSome = true →
      (captureTick true true st (some s) now a).state.lastScreen = s ∧
      (captureTick true true st (some s) now a).state.lastForceSendTime = now) ∧
    (∀ now' c, (captureTick true true st (some s) now a).sent.isSome = true →
      now' - now < FORCE_SEND_INTERVAL_MS →
      (captureTick true true
        ((captureTick true true st (some s) now a).state)
        (some s) now' c).sent = none) := by
  refine ⟨?_, ?_, ?_⟩
  · simp only [captureTick]
    by_cases hc : (s != st.lastScreen ||
        decide (FORCE_SEND_INTERVAL_MS ≤ now - st.lastForceSendTime)) = true
    · simp [hc]
    · simp [hc]
  · intro hsent
    simp only [captureTick] at hsent ⊢
    by_cases hc : (s != st.lastScreen ||
        decide (FORCE_SEND_INTERVAL_MS ≤ now - st.lastForceSendTime)) = true
    · simp [hc]
    · simp [hc] at hsent
  · intro now' c hsent hlt
    have hstate : (captureTick true true st (some s) now a).state.lastScreen = s ∧
        (captureTick true true st (some s) now a).state.lastForceSendTime = now := by
      simp only [captureTick] at hsent ⊢
      by_cases hc : (s != st.lastScreen ||
          decide (FORCE_SEND_INTERVAL_MS ≤ now - st.lastForceSendTime)) = true
      · simp [hc]
      · simp [hc] at hsent
    have key : ∀ st2 : CaptureState, st2.lastScreen = s →
        st2.lastForceSendTime = now →
        (captureTick true true st2 (some s) now' c).sent = none := by
      intro st2 h1 h2
      have hb : (s != st2.lastScreen) = false := by simp [h1]
      have hf : decide (FORCE_SEND_INTERVAL_MS ≤ now' - st2.lastForceSendTime) = false := by
        rw [h2]
        simpa using Nat.not_le.mpr hlt
      simp [captureTick, hb, hf]
    exact key _ hstate.1 hstate.2

/-- Evaluation of `c10_state_update_ignores_send_result`: after a send
whose transport result was `false`, the identical screen 5 ms later is not
resent. -/
theorem c10_state_update_ignores_send_result_witness :
    (captureTick true true
      ((captureTick true true initCaptureState (some "x") 100 false).state)
      (some "x") 105 false).sent = none :=
  (c10_state_update_ignores_send_result initCaptureState "x" 100 false
    false).2.2 105 false (by decide) (by decide)

/-- Claim C1: for reconnection attempt `n` with `1 ≤ n ≤ 5` (on a relay
Link or the control channel, which share this code), the scheduled delay is
`min(2000·2^(n-1), 60000)` (the cap never binds for `n ≤ 5`) plus an
integral jitter in `[0, 0.5·delay)`, hence
`base·2^(n-1) ≤ delay < base·2^(n-1)·1.5 ≤ maxDelay·1.5`; and
`scheduleReconnect` on a live, circuit-closed state with `n-1` prior
failures schedules exactly one connection attempt after that delay. -/
theorem c1_reconnect_backoff (n : Nat) (r : ℚ) (st : ReconnState) (now : Nat)
    (h1 : 1 ≤ n) (h5 : n ≤ MAX_RECONNECT_ATTEMPTS) (hr0 : 0 ≤ r) (hr1 : r < 1)
    (hd : st.destroyed = false) (hc : st.circuitBreakerOpen = false)
    (ha : st.reconnectAttempts = n - 1) :
    computeDelay n = BASE_RECONNECT_DELAY_MS * 2 ^ (n - 1) ∧
    (∃ j : ℤ, 0 ≤ j ∧ (j : ℚ) < (computeDelay n : ℚ) * (1 / 2) ∧
      reconnectDelayMs n r = (computeDelay n : ℤ) + j) ∧
    (BASE_RECONNECT_DELAY_MS * 2 ^ (n - 1) : ℤ) ≤ reconnectDelayMs n r ∧
    (reconnectDelayMs n r : ℚ) <
      (BASE_RECONNECT_DELAY_MS * 2 ^ (n - 1) : ℚ) * (3 / 2) ∧
    (BASE_RECONNECT_DELAY_MS * 2 ^ (n - 1) : ℚ) * (3 / 2) ≤
      (MAX_RECONNECT_DELAY_MS : ℚ) * (3 / 2) ∧
    (scheduleReconnect st now r).reconnectTimer =
      some (PendingTimer.mk TimerKind.connectAttempt
        (now + (reconnectDelayMs n r).toNat)) := by
  have h5' : n ≤ 5 := by simpa [MAX_RECONNECT_ATTEMPTS] using h5
  have hpow : 2 ^ (n - 1) ≤ 16 := by
    calc 2 ^ (n - 1) ≤ 2 ^ 4 := Nat.pow_le_pow_right (by norm_num) (by omega)
    _ = 16 := by norm_num
  have hmin : computeDelay n = BASE_RECONNECT_DELAY_MS * 2 ^ (n - 1) := by
    have : BASE_RECONNECT_DELAY_MS * 2 ^ (n - 1) ≤ MAX_RECONNECT_DELAY_MS := by
      simp only [BASE_RECONNECT_DELAY_MS, MAX_RECONNECT_DELAY_MS]
      omega
    simpa [computeDelay] using Nat.min_eq_left this
  have hdpos : 0 < computeDelay n := by
    rw [hmin]
    have : 0 < 2 ^ (n - 1) := Nat.pos_pow_of_pos _ (by norm_num)
    simp only [BASE_RECONNECT_DELAY_MS]
    omega
  have hdq : (0 : ℚ) < (computeDelay n : ℚ) := by exact_mod_cast hdpos
  have hjnonneg : (0 : ℚ) ≤ r * (computeDelay n : ℚ) * (1 / 2) := by positivity
  have hjlt : r * (computeDelay n : ℚ) * (1 / 2) < (computeDelay n : ℚ) * (1 / 2) := by
    have := mul_lt_mul_of_pos_right hr1 (by positivity :
      (0 : ℚ) < (computeDelay n : ℚ) * (1 / 2))
    calc r * (computeDelay n : ℚ) * (1 / 2)
        = r * ((computeDelay n : ℚ) * (1 / 2)) := by ring
    _ < 1 * ((computeDelay n : ℚ) * (1 / 2)) := this
    _ = (computeDelay n : ℚ) * (1 / 2) := by ring
  have hsplit : reconnectDelayMs n r =
      (computeDelay n : ℤ) + ⌊r * (computeDelay n : ℚ) * (1 / 2)⌋ := by
    simp only [reconnectDelayMs]
    rw [show ((computeDelay n : ℚ)) = (((computeDelay n : ℤ) : ℚ)) by push_cast; ring]
    exact Int.floor_int_add _ _
  refine ⟨hmin, ⟨⌊r * (computeDelay n : ℚ) * (1 / 2)⌋, ?_, ?_, hsplit⟩, ?_, ?_, ?_, ?_⟩
  · exact Int.floor_nonneg.mpr hjnonneg
  · calc (⌊r * (computeDelay n : ℚ) * (1 / 2)⌋ : ℚ)
        ≤ r * (computeDelay n : ℚ) * (1 / 2) := Int.floor_le _
    _ < (computeDelay n : ℚ) * (1 / 2) := hjlt
  · have hfl : (0 : ℤ) ≤ ⌊r * (computeDelay n : ℚ) * (1 / 2)⌋ :=
      Int.floor_nonneg.mpr hjnonneg
    have hcast : (BASE_RECONNECT_DELAY_MS : ℤ) * 2 ^ (n - 1) = (computeDelay n : ℤ) := by
      rw [hmin]; push_cast; ring
    rw [hsplit, ← hcast]
    linarith
  · have hle : (reconnectDelayMs n r : ℚ) ≤
        (computeDelay n : ℚ) + r * (computeDelay n : ℚ) * (1 / 2) := by
      simpa [reconnectDelayMs] using
        (Int.floor_le ((computeDelay n : ℚ) + r * (computeDelay n : ℚ) * (1 / 2)))
    calc (reconnectDelayMs n r : ℚ)
        ≤ (computeDelay n : ℚ) + r * (computeDelay n : ℚ) * (1 / 2) := hle
    _ < (computeDelay n : ℚ) + (computeDelay n : ℚ) * (1 / 2) := by linarith
    _ = (computeDelay n : ℚ) * (3 / 2) := by ring
    _ = (BASE_RECONNECT_DELAY_MS * 2 ^ (n - 1) : ℚ) * (3 / 2) := by
        rw [hmin]; push_cast; ring
  · have : (BASE_RECONNECT_DELAY_MS * 2 ^ (n - 1) : ℚ) ≤ (MAX_RECONNECT_DELAY_MS : ℚ) := by
      have hnat : BASE_RECONNECT_DELAY_MS * 2 ^ (n - 1) ≤ MAX_RECONNECT_DELAY_MS := by
        simp only [BASE_RECONNECT_DELAY_MS, MAX_RECONNECT_DELAY_MS]
        omega
      exact_mod_cast hnat
    linarith
  · have hna : st.reconnectAttempts + 1 = n := by omega
    simp only [scheduleReconnect, hd, hc]
    simp only [Bool.false_eq_true, if_false, false_and, hna]
    have hnle : ¬MAX_RECONNECT_ATTEMPTS < n := by omega
    simp [hnle]

/-- Evaluation of `c1_reconnect_backoff` at attempt 3 with jitter sample
1/2 on a fresh state with two prior failures. -/
theorem c1_reconnect_backoff_witness :
    (scheduleReconnect { initReconnState with reconnectAttempts := 2 } 0
      (1 / 2)).reconnectTimer =
      some (PendingTimer.mk TimerKind.connectAttempt
        (0 + (reconnectDelayMs 3 (1 / 2)).toNat)) :=
  (c1_reconnect_backoff 3 (1 / 2)
    { initReconnState with reconnectAttempts := 2 } 0
    (by norm_num) (by norm_num [MAX_RECONNECT_ATTEMPTS]) (by norm_num)
    (by norm_num) rfl rfl rfl).2.2.2.2.2

/-! Supporting lemmas for the orchestrator scan. -/

theorem lookupHandler_append (hs ext : Handlers) (s : String) :
    lookupHandler (hs ++ ext) s =
      (lookupHandler hs s).orElse (fun _ => lookupHandler ext s) := by
  induction hs with
  | nil => simp [lookupHandler]
  | cons p rest ih =>
      by_cases h : p.1 = s
      · simp [lookupHandler, h]
      · simp [lookupHandler, h, ih]

theorem lookupHandler_filter_ne (hs : Handlers) (s x : String) (h : s ≠ x) :
    lookupHandler (hs.filter (fun p => p.1 ≠ x)) s = lookupHandler hs s := by
  have hxs : x ≠ s := Ne.symm h
  induction hs with
  | nil => simp [lookupHandler]
  | cons p rest ih =>
      simp only [ne_eq, decide_not] at ih
      by_cases hp : p.1 = x
      · simp [List.filter_cons, hp, lookupHandler, hxs, ih]
      · by_cases hq : p.1 = s
        · simp [List.filter_cons, hp, lookupHandler, hq, h]
        · simp [List.filter_cons, hp, lookupHandler, hq, ih]

theorem lookupHandler_filter_self (hs : Handlers) (x : String) :
    lookupHandler (hs.filter (fun p => p.1 ≠ x)) x = none := by
  induction hs with
  | nil => simp [lookupHandler]
  | cons p rest ih =>
      simp only [ne_eq, decide_not] at ih
      by_cases hp : p.1 = x
      · simp [List.filter_cons, hp, ih]
      · simp [List.filter_cons, hp, lookupHandler, ih]

theorem lookupHandler_filter_none (q : String × Nat → Bool) (hs : Handlers)
    (s : String) (h : lookupHandler hs s = none) :
    lookupHandler (hs.filter q) s = none := by
  induction hs with
  | nil => simp [lookupHandler]
  | cons p rest ih =>
      by_cases hp : p.1 = s
      · simp [lookupHandler, hp] at h
      · simp only [lookupHandler, hp, if_neg, ite_false] at h
        by_cases hq : q p = true
        · simp [List.filter_cons, hq, lookupHandler, hp, ih h]
        · simp [List.filter_cons, hq, ih h]

theorem startNew_started (tracked : List String) :
    ∀ (l : List String) (hs : Handlers) (fresh : Nat),
      (startNew tracked hs fresh l).2.2 =
        l.filter (fun s => decide (s ∉ tracked)) := by
  intro l
  induction l with
  | nil => intro hs fresh; simp [startNew]
  | cons x rest ih =>
      intro hs fresh
      by_cases h : x ∈ tracked
      · simp [startNew, h, ih]
      · simp [startNew, h, ih]

theorem startNew_lookup_tracked (tracked : List String) (s : String)
    (hst : s ∈ tracked) :
    ∀ (l : List String) (hs : Handlers) (fresh : Nat),
      lookupHandler (startNew tracked hs fresh l).1 s = lookupHandler hs s := by
  intro l
  induction l with
  | nil => intro hs fresh; simp [startNew]
  | cons x rest ih =>
      intro hs fresh
      by_cases h : x ∈ tracked
      · simp only [startNew, h, ite_true]
        exact ih hs fresh
      · have hxs : x ≠ s := fun e => h (e ▸ hst)
        simp only [startNew, h, ite_false]
        rw [ih]
        rw [lookupHandler_append]
        cases hcase : lookupHandler hs s with
        | some v => simp
        | none => simp [lookupHandler, hxs]

theorem startNew_lookup_isSome (tracked : List String) (s : String) :
    ∀ (l : List String) (hs : Handlers) (fresh : Nat),
      (lookupHandler hs s).isSome = true →
      (lookupHandler (startNew tracked hs fresh l).1 s).isSome = true := by
  intro l
  induction l with
  | nil => intro hs fresh h; simpa [startNew] using h
  | cons x rest ih =>
      intro hs fresh h
      by_cases hx : x ∈ tracked
      · simp only [startNew, hx, ite_true]
        exact ih hs fresh h
      · simp only [startNew, hx, ite_false]
        apply ih
        rw [lookupHandler_append]
        cases hcase : lookupHandler hs s with
        | some v => simp
        | none => simp [hcase] at h

theorem startNew_lookup_new (tracked : List String) (s : String)
    (hnt : s ∉ tracked) :
    ∀ (l : List String) (hs : Handlers) (fresh : Nat), s ∈ l →
      (lookupHandler (startNew tracked hs fresh l).1 s).isSome = true := by
  intro l
  induction l with
  | nil => intro hs fresh h; cases h
  | cons x rest ih =>
      intro hs fresh hmem
      by_cases hx : x ∈ tracked
      · have hsr : s ∈ rest := by
          cases hmem with
          | head => exact absurd hx hnt
          | tail _ h => exact h
        simp only [startNew, hx, ite_true]
        exact ih hs fresh hsr
      · by_cases hsx : s = x
        · subst hsx
          simp only [startNew, hx, ite_false]
          apply startNew_lookup_isSome
          rw [lookupHandler_append]
          cases hcase : lookupHandler hs s with
          | some v => simp
          | none => simp [lookupHandler]
        · have hsr : s ∈ rest := by
            cases hmem with
            | head => exact absurd rfl hsx
            | tail _ h => exact h
          simp only [startNew, hx, ite_false]
          exact ih _ _ hsr

theorem stopRemoved_stopped (current : List String) :
    ∀ (l : List String) (hs : Handlers),
      (stopRemoved current l hs).2 =
        l.filter (fun s => decide (s ∉ current)) := by
  intro l
  induction l with
  | nil => intro hs; simp [stopRemoved]
  | cons x rest ih =>
      intro hs
      by_cases h : x ∈ current
      · simp [stopRemoved, h, ih]
      · simp [stopRemoved, h, ih]

theorem stopRemoved_lookup_current (current : List String) (s : String)
    (hcur : s ∈ current) :
    ∀ (l : List String) (hs : Handlers),
      lookupHandler (stopRemoved current l hs).1 s = lookupHandler hs s := by
  intro l
  induction l with
  | nil => intro hs; simp [stopRemoved]
  | cons x rest ih =>
      intro hs
      by_cases hx : x ∈ current
      · simp only [stopRemoved, hx, ite_true]
        exact ih hs
      · have hsx : s ≠ x := fun e => hx (e ▸ hcur)
        simp only [stopRemoved, hx, ite_false]
        rw [ih, lookupHandler_filter_ne _ _ _ hsx]

theorem stopRemoved_lookup_none (current : List String) (s : String) :
    ∀ (l : List String) (hs : Handlers), lookupHandler hs s = none →
      lookupHandler (stopRemoved current l hs).1 s = none := by
  intro l
  induction l with
  | nil => intro hs h; simpa [stopRemoved] using h
  | cons x rest ih =>
      intro hs h
      by_cases hx : x ∈ current
      · simp only [stopRemoved, hx, ite_true]
        exact ih hs h
      · simp only [stopRemoved, hx, ite_false]
        exact ih _ (lookupHandler_filter_none _ _ _ h)

theorem stopRemoved_lookup_removed (current : List String) (s : String)
    (hnc : s ∉ current) :
    ∀ (l : List String) (hs : Handlers), s ∈ l →
      lookupHandler (stopRemoved current l hs).1 s = none := by
  intro l
  induction l with
  | nil => intro hs h; cases h
  | cons x rest ih =>
      intro hs hmem
      by_cases hx : x ∈ current
      · have hsr : s ∈ rest := by
          cases hmem with
          | head => exact absurd hx hnc
          | tail _ h => exact h
        simp only [stopRemoved, hx, ite_true]
        exact ih hs hsr
      · by_cases hsx : s = x
        · subst hsx
          simp only [stopRemoved, hx, ite_false]
          exact stopRemoved_lookup_none _ _ _ _ (lookupHandler_filter_self _ _)
        · have hsr : s ∈ rest := by
            cases hmem with
            | head => exact absurd rfl hsx
            | tail _ h => exact h
          simp only [stopRemoved, hx, ite_false]
          exact ih _ hsr

/-- Claim C8: one orchestrator scan starts a pair for exactly the scanned
names not yet tracked, stops and removes the pair of exactly the tracked
names absent from the scan, and leaves every other tracked pair untouched
(same handler as before). -/
theorem c8_scan_frame (hs : Handlers) (fresh : Nat) (scan : List String) :
    (scanAndUpdateSessions hs fresh scan).started =
      scan.dedup.filter (fun s => decide (s ∉ keysOf hs)) ∧
    (scanAndUpdateSessions hs fresh scan).stopped =
      (keysOf hs).filter (fun s => decide (s ∉ scan.dedup)) ∧
    (∀ s, s ∈ keysOf hs → s ∈ scan.dedup →
      lookupHandler (scanAndUpdateSessions hs fresh scan).handlers s =
        lookupHandler hs s) ∧
    (∀ s, s ∈ keysOf hs → s ∉ scan.dedup →
      lookupHandler (scanAndUpdateSessions hs fresh scan).handlers s = none) ∧
    (∀ s, s ∈ scan.dedup → s ∉ keysOf hs →
      (lookupHandler (scanAndUpdateSessions hs fresh scan).handlers s).isSome
        = true) := by
  refine ⟨?_, ?_, ?_, ?_, ?_⟩
  · simp only [scanAndUpdateSessions]
    exact startNew_started _ _ _ _
  · simp only [scanAndUpdateSessions]
    exact stopRemoved_stopped _ _ _
  · intro s hk hc
    simp only [scanAndUpdateSessions]
    rw [stopRemoved_lookup_current _ _ hc]
    exact startNew_lookup_tracked _ _ hk _ _ _
  · intro s hk hc
    simp only [scanAndUpdateSessions]
    exact stopRemoved_lookup_removed _ _ hc _ _ hk
  · intro s hc hk
    simp only [scanAndUpdateSessions]
    have h1 := startNew_lookup_new (keysOf hs) s hk scan.dedup hs fresh hc
    rw [stopRemoved_lookup_current _ _ hc]
    exact h1

/-- Evaluation of `c8_scan_frame` on the scenario: tracked
`{dev ↦ 0, build ↦ 1}`, scan observes only `dev` — `dev`'s pair is
untouched. -/
theorem c8_scan_frame_witness :
    lookupHandler (scanAndUpdateSessions [("dev", 0), ("build", 1)] 2
      ["dev"]).handlers "dev" =
      lookupHandler [("dev", 0), ("build", 1)] "dev" :=
  (c8_scan_frame [("dev", 0), ("build", 1)] 2 ["dev"]).2.2.1 "dev"
    (by decide) (by decide)

/-! Supporting lemmas for the circuit-breaker invariant. -/

theorem scheduleReconnect_inv (st : ReconnState) (now : Nat) (r : ℚ)
    (h : LinkInv st) : LinkInv (scheduleReconnect st now r) := by
  simp only [scheduleReconnect]
  split_ifs with hd hcw hop htrip htrip
  · exact h
  · intro hopen
    refine ⟨(h hcw.1).1, fun t ht => ?_⟩
    simp only [Option.some.injEq] at ht
    subst ht
    exact ⟨rfl, le_refl _⟩
  · intro _
    exact ⟨rfl, fun t ht => by
      simp only [Option.some.injEq] at ht
      subst ht
      exact ⟨rfl, le_refl _⟩⟩
  · intro hopen
    simp at hopen
  · intro _
    exact ⟨rfl, fun t ht => by
      simp only [Option.some.injEq] at ht
      subst ht
      exact ⟨rfl, le_refl _⟩⟩
  · intro hopen
    simp only at hopen
    exact absurd hopen hop

theorem linkStep_inv (st : ReconnState) (e : LinkEvent) (h : LinkInv st) :
    LinkInv (linkStep st e).1 := by
  cases e with
  | sockOpen =>
      intro hopen
      simp [linkStep] at hopen
  | sockClose now r =>
      simp only [linkStep]
      split_ifs with hg
      · simp only
        apply scheduleReconnect_inv
        intro hopen
        exact h hopen
      · intro hopen
        exact h hopen
  | timerFire now r =>
      cases ht : st.reconnectTimer with
      | none =>
          simpa [linkStep, ht] using h
      | some t =>
          cases hk : t.kind with
          | recheck =>
              simp only [linkStep, ht, hk]
              apply scheduleReconnect_inv
              intro hopen
              exact ⟨(h hopen).1, fun t' ht' => by simp at ht'⟩
          | connectAttempt =>
              simp only [linkStep, ht, hk]
              split_ifs with hg
              · intro hopen
                exact ⟨(h hopen).1, fun t' ht' => by simp at ht'⟩
              · intro hopen
                exact ⟨(h hopen).1, fun t' ht' => by simp at ht'⟩
  | destroyCall =>
      intro hopen
      simp only [linkStep, destroyLink] at hopen ⊢
      exact ⟨(h hopen).1, fun t ht => by simp at ht⟩

theorem reachable_inv (st : ReconnState) (h : Reachable st) : LinkInv st := by
  induction h with
  | init =>
      intro hopen
      simp [initReconnState] at hopen
  | step st' e _ _ ih => exact linkStep_inv st' e ih

/-- Claim C2: when the attempt counter would exceed 5 on a live,
circuit-closed Link, `scheduleReconnect` trips the breaker open for exactly
120 s (`circuitResetAt = now + 120000`) with the attempt counter reset to
0; on every reachable state an open breaker implies a zero attempt counter;
and from a reachable state with the breaker open no event produces a
connection attempt before `circuitResetAt` (none is produced at all while
it is open). -/
theorem c2_circuit_breaker_invariant (st : ReconnState) (now : Nat) (r : ℚ) :
    (st.destroyed = false → st.circuitBreakerOpen = false →
      MAX_RECONNECT_ATTEMPTS < st.reconnectAttempts + 1 →
      scheduleReconnect st now r =
        { st with
            circuitBreakerOpen := true,
            circuitBreakerResetTime := now + CIRCUIT_BREAKER_DURATION_MS,
            reconnectAttempts := 0,
            reconnectTimer := some (PendingTimer.mk TimerKind.recheck
              (now + CIRCUIT_BREAKER_DURATION_MS)) } ∧
      CIRCUIT_BREAKER_DURATION_MS = 120000) ∧
    (Reachable st → st.circuitBreakerOpen = true → st.reconnectAttempts = 0) ∧
    (∀ e n, Reachable st → eventOk st e → st.circuitBreakerOpen = true →
      (linkStep st e).2 = LinkAction.connectCall n →
      st.circuitBreakerResetTime ≤ n) := by
  refine ⟨fun hd hc htrip => ⟨?_, rfl⟩, fun hr hopen => (reachable_inv st hr hopen).1,
    fun e n hr hok hopen hact => ?_⟩
  · simp only [scheduleReconnect, hd, hc]
    simp only [Bool.false_eq_true, if_false, false_and, htrip, if_true]
    rw [hd]
  · cases e with
    | sockOpen => simp [linkStep] at hact
    | sockClose now' r' =>
        simp only [linkStep] at hact
        split_ifs at hact
    | destroyCall => simp [linkStep] at hact
    | timerFire now' r' =>
        cases ht : st.reconnectTimer with
        | none => simp [linkStep, ht] at hact
        | some t =>
            cases hk : t.kind with
            | recheck => simp [linkStep, ht, hk] at hact
            | connectAttempt =>
                have := ((reachable_inv st hr hopen).2 t ht).1
                rw [hk] at this
                cases this

/-- Evaluation of `c2_circuit_breaker_invariant`: a sixth consecutive
failure at time 1000 trips the breaker until 121000 with the counter reset
to 0. -/
theorem c2_circuit_breaker_invariant_witness :
    scheduleReconnect { initReconnState with reconnectAttempts := 5 } 1000 0 =
      { initReconnState with
          circuitBreakerOpen := true,
          circuitBreakerResetTime := 1000 + CIRCUIT_BREAKER_DURATION_MS,
          reconnectAttempts := 0,
          reconnectTimer := some (PendingTimer.mk TimerKind.recheck
            (1000 + CIRCUIT_BREAKER_DURATION_MS)) } :=
  ((c2_circuit_breaker_invariant
    { initReconnState with reconnectAttempts := 5 } 1000 0).1 rfl rfl
    (by decide)).1

end SessionCast
